import Mathlib

set_option autoImplicit false

/-!
# Verification of the image-optimization delivery pipeline

A shallow embedding, in Lean 4, of the two runtime logic paths of the
`aws-image-optimization` repository:

* `src/functions/url-rewrite/index.js` — the edge-side Request Normalizer
  (namespace `UrlRewrite` below), and
* `src/functions/image-processing/index.mjs` — the Transformation Service
  (namespace `ImageProcessing` below).

External capabilities (the S3 client, `fetch`, the Sharp codec, the regular
expression engine) are modelled as explicit oracle functions carried in a
`World` record; the embedded handlers are pure functions of the request, the
configuration and that oracle record, mirroring the source line by line.

JavaScript primitive behaviours that the source relies on (`parseInt`,
string truthiness, `split`, `includes`, `toLowerCase`, …) are embedded as
executable functions over `String.data`, so that every definition reduces
inside the kernel on concrete inputs.
-/

namespace JS

/-- `haystack.split(sep)` for a one-character separator, over character
lists: `"a,,b"` splits into `["a", "", "b"]`, and the empty string into
`[""]`. -/
def splitListOn (sep : Char) : List Char → List (List Char)
  | [] => [[]]
  | c :: rest =>
    match splitListOn sep rest with
    | [] => [[]]
    | cur :: parts => if c = sep then [] :: cur :: parts else (c :: cur) :: parts

/-- `String` wrapper of `splitListOn`. -/
def splitStr (sep : Char) (s : String) : List String :=
  (splitListOn sep s.data).map String.mk

/-- `s.toLowerCase()`. -/
def lowerStr (s : String) : String := String.mk (s.data.map Char.toLower)

/-- JavaScript string falsiness: only the empty string is falsy. -/
def strIsEmpty (s : String) : Bool := s.data.isEmpty

/-- JavaScript truthiness of a possibly-absent string: `undefined` and the
empty string are falsy, every other string is truthy. -/
def jsTruthyStr : Option String → Bool
  | none => false
  | some s => !strIsEmpty s

/-- Whether `needle` occurs as a contiguous run inside the second list. -/
def containsList (needle : List Char) : List Char → Bool
  | [] => needle.isEmpty
  | c :: rest => needle.isPrefixOf (c :: rest) || containsList needle rest

/-- `haystack.includes(needle)`. -/
def jsIncludes (haystack needle : String) : Bool :=
  containsList needle.data haystack.data

/-- `s.startsWith(pre)`. -/
def startsWithStr (s pre : String) : Bool := pre.data.isPrefixOf s.data

/-- `s.endsWith(c)` for a one-character suffix. -/
def endsWithChar (s : String) (c : Char) : Bool :=
  match s.data.getLast? with
  | some d => d = c
  | none => false

/-- `s.slice(0, -1)`: drop the last character. -/
def dropLastStr (s : String) : String := String.mk s.data.dropLast

/-- `s.replace(/a/g, b)` for one-character pattern and replacement. -/
def replaceChar (s : String) (a b : Char) : String :=
  String.mk (s.data.map fun c => if c = a then b else c)

/-- `s.trim()`: strip whitespace from both ends. -/
def trimStr (s : String) : String :=
  String.mk (((s.data.dropWhile Char.isWhitespace).reverse.dropWhile Char.isWhitespace).reverse)

/-- `arr.join(sep)`. -/
def joinWith (sep : String) : List String → String
  | [] => ""
  | [x] => x
  | x :: y :: rest => x ++ sep ++ joinWith sep (y :: rest)

/-- The numeric value of a non-empty run of decimal digits. -/
def digitsToNat? (l : List Char) : Option Nat :=
  if l.isEmpty then none
  else some (l.foldl (fun n c => n * 10 + (c.toNat - 48)) 0)

/-- JavaScript `parseInt(value)` on a base-10 numeral: skip leading
whitespace, read an optional sign, then a maximal run of decimal digits,
ignoring any trailing garbage; `none` models `NaN` (no digits found).  The
hexadecimal `0x` prefix form, which never arises for the query values the
pipeline parses, is not modelled. -/
def jsParseInt (s : String) : Option Int :=
  let t := s.data.dropWhile Char.isWhitespace
  let signed : Int × List Char :=
    match t with
    | '-' :: r => (-1, r)
    | '+' :: r => (1, r)
    | r => (1, r)
  let digits := signed.2.takeWhile Char.isDigit
  match digitsToNat? digits with
  | some n => some (signed.1 * (n : Int))
  | none => none

end JS

namespace UrlRewrite

open JS

/-- `SUPPORTED_FORMATS` of `url-rewrite/index.js` line 1. -/
def SUPPORTED_FORMATS : List String := ["auto", "jpeg", "webp", "avif", "png", "svg", "gif"]

/-- `getNormalizedFormat` (lines 3–14): negotiate the output format from the
`accept` header (`none` = header absent).  First match wins: AVIF, then
WEBP, else the JPEG default. -/
def getNormalizedFormat (accept : Option String) : String :=
  match accept with
  | none => "jpeg"
  | some a =>
    if jsIncludes a "avif" then "avif"
    else if jsIncludes a "webp" then "webp"
    else "jpeg"

/-- The `case 'format'` arm of `normalizeOperations` (lines 22–27): lower-case
the value, keep it only when supported, and resolve `auto` through the
Format Negotiator.  `none` = no write to the operation set. -/
def formatCase (accept : Option String) (value : String) : Option String :=
  let format := lowerStr value
  if format ∈ SUPPORTED_FORMATS then
    some (if format = "auto" then getNormalizedFormat accept else format)
  else none

/-- The `case 'width'` / `case 'height'` arms (lines 28–39): `parseInt`, keep
only positive results, re-serialize with `toString`. -/
def dimCase (value : String) : Option String :=
  match jsParseInt value with
  | some d => if 0 < d then some (toString d) else none
  | none => none

/-- The `case 'quality'` arm (lines 40–46): `parseInt`, keep only positive
results, clamp with `Math.min(quality, 100)`, re-serialize. -/
def qualityCase (value : String) : Option String :=
  match jsParseInt value with
  | some q => if 0 < q then some (toString (min q 100)) else none
  | none => none

/-- The normalized operation set being built by `normalizeOperations`: at most
one serialized value per recognized key. -/
structure NormalizedOps where
  format : Option String := none
  quality : Option String := none
  width : Option String := none
  height : Option String := none
deriving DecidableEq, Repr

/-- One iteration of the `Object.keys(request.querystring).forEach` loop of
`normalizeOperations` (lines 18–51): skip falsy values, dispatch on the
lower-cased key, ignore unrecognized keys. -/
def applyOperation (accept : Option String) (acc : NormalizedOps) (p : String × String) :
    NormalizedOps :=
  if strIsEmpty p.2 then acc
  else if lowerStr p.1 = "format" then
    match formatCase accept p.2 with
    | some f => { acc with format := some f }
    | none => acc
  else if lowerStr p.1 = "width" then
    match dimCase p.2 with
    | some w => { acc with width := some w }
    | none => acc
  else if lowerStr p.1 = "height" then
    match dimCase p.2 with
    | some h => { acc with height := some h }
    | none => acc
  else if lowerStr p.1 = "quality" then
    match qualityCase p.2 with
    | some q => { acc with quality := some q }
    | none => acc
  else acc

/-- `normalizeOperations` (lines 16–53) over the query string, embedded as the
ordered association list of a JavaScript object's keys (each key appears at
most once; iteration is in insertion order). -/
def normalizeOperations (accept : Option String) (querystring : List (String × String)) :
    NormalizedOps :=
  querystring.foldl (applyOperation accept) {}

/-- The serialization order of `constructNormalizedUri` (lines 55–64):
`format`, `quality`, `width`, `height`. -/
def opsArray (ops : NormalizedOps) : List String :=
  (match ops.format with | some f => ["format=" ++ f] | none => []) ++
  (match ops.quality with | some q => ["quality=" ++ q] | none => []) ++
  (match ops.width with | some w => ["width=" ++ w] | none => []) ++
  (match ops.height with | some h => ["height=" ++ h] | none => [])

/-- `constructNormalizedUri` (lines 55–64). -/
def constructNormalizedUri (originalImagePath : String) (ops : NormalizedOps) : String :=
  let arr := opsArray ops
  if arr.isEmpty then originalImagePath ++ "/original"
  else originalImagePath ++ "/" ++ joinWith "," arr

/-- A CloudFront-Functions viewer request as the handler reads it: the uri,
the query string (`none` = absent), and the `accept` header value. -/
structure CFRequest where
  uri : String
  querystring : Option (List (String × String)) := none
  accept : Option String := none
deriving DecidableEq, Repr

/-- `handler` (lines 66–87): strip one trailing slash, rewrite the uri to the
canonical path, and clear the query string. -/
def handler (request : CFRequest) : CFRequest :=
  let uri := if endsWithChar request.uri '/' then dropLastStr request.uri else request.uri
  let originalImagePath := uri
  let newUri :=
    if strIsEmpty originalImagePath then uri
    else
      match request.querystring with
      | some qs => constructNormalizedUri originalImagePath (normalizeOperations request.accept qs)
      | none => originalImagePath ++ "/original"
  { uri := newUri, querystring := some [], accept := request.accept }

end UrlRewrite

namespace ImageProcessing

open JS

/-- `MAX_IMAGE_DIMENSION` (`image-processing/index.mjs` line 14). -/
def MAX_IMAGE_DIMENSION : Int := 4000

/-- Environment configuration read at module load (lines 10–16).
`maxImageSize` is `parseInt(process.env.MAX_IMAGE_SIZE)`; `none` models the
`NaN` of an unset variable. -/
structure Config where
  transformedBucket : Option String
  cacheTTL : String
  maxImageSize : Option Int
  allowedRemotePatterns : String
  allowedRefererPatterns : String

/-- The chain of Sharp calls the try-block of lines 141–208 issues before
`toBuffer()`.  `resizeWidth`/`resizeHeight`: `none` = key absent from
`resizingOptions`, `some none` = set to `NaN` (a non-numeric value survived
`parseInt`), `some (some d)` = set to `d`.  `encode`: `none` = no `toFormat`
call, `some (f, none)` = `toFormat(f)`, `some (f, some q)` =
`toFormat(f, { quality: q })` with `q = none` modelling a `NaN` quality. -/
structure TransformPlan where
  resizeWidth : Option (Option Int) := none
  resizeHeight : Option (Option Int) := none
  rotate : Bool := false
  encode : Option (String × Option (Option Int)) := none
deriving DecidableEq, Repr

/-- The external capabilities the handler calls out to, as oracles: the
regular-expression engine, the S3 client, `new URL(decodeURIComponent(·))`
(`none` = the constructor throws), `fetch` (`none` = network failure), the
Sharp codec (`none` = decode/encode error), and the measured phase
durations. -/
structure World where
  regexTest : String → String → Bool
  s3Get : String → Option (List Nat × Option String)
  parseUrl : String → Option String
  httpFetch : String → Option (List Nat × Option String)
  codecEncode : TransformPlan → Option (List Nat)
  orientation : Bool
  s3PutOk : String → Bool
  dlDur : Nat
  tfDur : Nat
  upDur : Nat

/-- The Lambda function-URL event fields the handler reads. -/
structure Event where
  method : String
  path : String
  referer : Option String

/-- A Lambda function-URL response. -/
structure Response where
  statusCode : Nat
  body : Option String := none
  isBase64Encoded : Bool := false
  headers : List (String × Option String) := []
deriving DecidableEq, Repr

/-- `sendError(statusCode)` (lines 269–272): status plus an absent body. -/
def sendError (statusCode : Nat) : Response := { statusCode }

/-- `isValidRefererUrl` (lines 18–26): some comma-separated pattern, trimmed,
matches the url under the regex engine. -/
def isValidRefererUrl (regexTest : String → String → Bool) (patterns url : String) : Bool :=
  (splitStr ',' patterns).any fun pattern => regexTest (trimStr pattern) url

/-- `isValidRemoteUrl` (lines 28–36). -/
def isValidRemoteUrl (regexTest : String → String → Bool) (patterns url : String) : Bool :=
  (splitStr ',' patterns).any fun pattern => regexTest (trimStr pattern) url

/-- `remoteImageHandler` (lines 38–49), transcribed with its actual guard
`if (!url && !isValidRemoteUrl(url)) return null`: the fetch is skipped only
when the url is falsy AND fails the allow-list.  `none` covers both the
`null` return and a rejected `fetch` (each makes the caller throw into the
catch that produces the 404). -/
def remoteImageHandler (w : World) (cfg : Config) (url : String) :
    Option (List Nat × Option String) :=
  if strIsEmpty url && !isValidRemoteUrl w.regexTest cfg.allowedRemotePatterns url then none
  else w.httpFetch url

/-- The nested try/catch of lines 88–125: primary S3 lookup, then the
remote-url fallback; `none` means the outer catch fires and the handler
answers 404. -/
def resolveImage (cfg : Config) (w : World) (key : String) :
    Option (List Nat × Option String) :=
  match w.s3Get key with
  | some res => some res
  | none =>
    match w.parseUrl key with
    | none => none
    | some url => remoteImageHandler w cfg url

end ImageProcessing

namespace ImageProcessing

open JS

/-- The entry list behind
`Object.fromEntries(operationsPrefix.split(",").map(op => op.split("=")))`
(lines 134–136): key = piece before the first `=`, value = piece between the
first and second `=` (`none` when there is no `=`). -/
def opsEntries (operationsPrefix : String) : List (String × Option String) :=
  (splitStr ',' operationsPrefix).map fun op =>
    ((splitStr '=' op).headD "", (splitStr '=' op).get? 1)

/-- `operationsJSON[key]`: `Object.fromEntries` keeps the LAST entry for a
duplicated key; an absent key and an `undefined` value are both `none`. -/
def opsGet (operationsPrefix key : String) : Option String :=
  (((opsEntries operationsPrefix).filter fun e => decide (e.1 = key)).getLast?).bind (·.2)

/-- Lines 144–154 for one dimension: `parseInt` the raw value and clamp with
`opDim > MAX_IMAGE_DIMENSION ? MAX_IMAGE_DIMENSION : opDim` (a `NaN`
comparison is false, so a `NaN` survives unclamped — inner `none`).  Outer
`none` = the operation is absent/falsy and `resizingOptions` gets no key. -/
def dimEntry (operationsPrefix key : String) : Option (Option Int) :=
  let v := opsGet operationsPrefix key
  if jsTruthyStr v then
    some ((jsParseInt (v.getD "")).map fun d =>
      if MAX_IMAGE_DIMENSION < d then MAX_IMAGE_DIMENSION else d)
  else none

/-- The `switch (operationsJSON["format"])` of lines 164–189: the resolved
content type and whether the codec is lossy. -/
def formatSwitch (format : String) : String × Bool :=
  if format = "jpg" ∨ format = "jpeg" then ("image/jpeg", true)
  else if format = "gif" then ("image/gif", false)
  else if format = "webp" then ("image/webp", true)
  else if format = "png" then ("image/png", false)
  else if format = "avif" then ("image/avif", true)
  else ("image/jpeg", true)

/-- Lines 164–206: resolve the response content type and the `toFormat` call
from the `format`/`quality` operations and the source content type.
Branches in source order: explicit format (quality only when lossy), then
the SVG relabel, then the PNG fallback for an absent/non-image content type,
else passthrough. -/
def encodeResolution (formatOp qualityOp srcCT : Option String) :
    Option String × Option (String × Option (Option Int)) :=
  if jsTruthyStr formatOp then
    let f := formatOp.getD ""
    let ct := (formatSwitch f).1
    let isLossy := (formatSwitch f).2
    if jsTruthyStr qualityOp && isLossy then
      (some ct, some (f, some (jsParseInt (qualityOp.getD ""))))
    else (some ct, some (f, none))
  else if srcCT = some "image/svg+xml" then
    (some "image/png", none)
  else if !jsTruthyStr srcCT || !startsWithStr (srcCT.getD "") "image/" then
    (some "image/png", some ("png", none))
  else (srcCT, none)

/-- The whole try-block of lines 141–206 as a `TransformPlan` plus the
resolved content type. -/
def buildPlan (operationsPrefix : String) (orientation : Bool) (srcCT : Option String) :
    TransformPlan × Option String :=
  let enc := encodeResolution (opsGet operationsPrefix "format")
    (opsGet operationsPrefix "quality") srcCT
  ({ resizeWidth := dimEntry operationsPrefix "width"
     resizeHeight := dimEntry operationsPrefix "height"
     rotate := orientation
     encode := enc.2 }, enc.1)

/-- The standard base64 alphabet. -/
def base64Table : List Char :=
  "ABCDEFGHIJKLMNOPQRSTUVWXYZabcdefghijklmnopqrstuvwxyz0123456789+/".data

/-- One base64 digit. -/
def b64c (n : Nat) : Char := base64Table.getD n 'A'

/-- `Buffer.toString("base64")`: standard base64 with `=` padding, each input
byte taken mod 256. -/
def base64Encode : List Nat → String
  | [] => ""
  | [a] =>
    let a := a % 256
    String.mk [b64c (a / 4), b64c (a % 4 * 16), '=', '=']
  | [a, b] =>
    let a := a % 256
    let b := b % 256
    String.mk [b64c (a / 4), b64c (a % 4 * 16 + b / 16), b64c (b % 16 * 4), '=']
  | a :: b :: c :: rest =>
    let a' := a % 256
    let b' := b % 256
    let c' := c % 256
    String.mk [b64c (a' / 4), b64c (a' % 4 * 16 + b' / 16),
      b64c (b' % 16 * 4 + c' / 64), b64c (c' % 64)] ++ base64Encode rest

/-- `Buffer.byteLength(buf) > MAX_IMAGE_SIZE` (line 217); comparing against a
`NaN` limit (unset `MAX_IMAGE_SIZE`) is false. -/
def imageTooBig (buf : List Nat) (maxImageSize : Option Int) : Bool :=
  match maxImageSize with
  | some m => decide ((buf.length : Int) > m)
  | none => false

/-- The 200 response of lines 256–265. -/
def okResponse (cfg : Config) (buf : List Nat) (contentType : Option String)
    (timing : String) : Response :=
  { statusCode := 200
    body := some (base64Encode buf)
    isBase64Encoded := true
    headers := [("Content-Type", contentType), ("Cache-Control", some cfg.cacheTTL),
      ("Server-Timing", some timing)] }

/-- Lines 215–266: the size check, the optional cache-store write, and the
final response.  `timing` is the `Server-Timing` value accumulated through
the transform phase; a successful upload appends its own duration. -/
def respond (cfg : Config) (w : World) (imageStorageKey operationsPrefix : String)
    (buf : List Nat) (contentType : Option String) (timing : String) : Response :=
  let tooBig := imageTooBig buf cfg.maxImageSize
  match cfg.transformedBucket with
  | some _ =>
    if w.s3PutOk (imageStorageKey ++ "/" ++ operationsPrefix) then
      let timingUp := timing ++ ",img-upload;dur=" ++ toString w.upDur
      if tooBig then
        { statusCode := 302
          headers := [("Location",
              some ("/" ++ imageStorageKey ++ "?" ++ replaceChar operationsPrefix ',' '&'))
            , ("Cache-Control", some "private,no-store")
            , ("Server-Timing", some timingUp)] }
      else okResponse cfg buf contentType timingUp
    else if tooBig then sendError 403
    else okResponse cfg buf contentType timing
  | none =>
    if tooBig then sendError 403
    else okResponse cfg buf contentType timing

/-- The referer gate of lines 70–77: only enforced when the operations
prefix is not `original`; `!referer` (absent or empty) fails, otherwise
`isValidRefererUrl` decides. -/
def refererAllowed (regexTest : String → String → Bool) (patterns : String)
    (referer : Option String) : Bool :=
  match referer with
  | none => false
  | some r => !strIsEmpty r && isValidRefererUrl regexTest patterns r

/-- `handler` (lines 51–267). -/
def handler (cfg : Config) (w : World) (event : Event) : Response :=
  if event.method ≠ "GET" then sendError 400
  else if strIsEmpty event.path then sendError 400
  else
    let imagePathArray := splitStr '/' event.path
    let operationsPrefix := imagePathArray.getLastD ""
    if operationsPrefix ≠ "original" ∧
        refererAllowed w.regexTest cfg.allowedRefererPatterns event.referer = false then
      sendError 400
    else
      let originalImagePath := joinWith "/" (imagePathArray.dropLast.drop 1)
      match resolveImage cfg w originalImagePath with
      | none => sendError 404
      | some (originalImageBody, srcCT) =>
        let _ := originalImageBody
        let plan := buildPlan operationsPrefix w.orientation srcCT
        match w.codecEncode plan.1 with
        | none => sendError 500
        | some buf =>
          let timing := "img-download;dur=" ++ toString w.dlDur ++
            ",img-transform;dur=" ++ toString w.tfDur
          respond cfg w originalImagePath operationsPrefix buf plan.2 timing

end ImageProcessing

namespace UrlRewrite

open JS

/-- The four recognized operation keys, as abstract slots of `NormalizedOps`
(proof machinery for reasoning uniformly over the four fields). -/
inductive Slot
  | format
  | quality
  | width
  | height
deriving DecidableEq, Repr

/-- The query-string key that feeds a slot. -/
def slotKey : Slot → String
  | .format => "format"
  | .quality => "quality"
  | .width => "width"
  | .height => "height"

/-- Field projection of `NormalizedOps` by slot. -/
def NormalizedOps.get (ops : NormalizedOps) : Slot → Option String
  | .format => ops.format
  | .quality => ops.quality
  | .width => ops.width
  | .height => ops.height

/-- Whether the lower-cased key is one of the four recognized operation
names (i.e. the `forEach` switch does not fall through to `default`). -/
def isRecognizedKey (k : String) : Bool :=
  decide (lowerStr k = "format") || decide (lowerStr k = "width") ||
  decide (lowerStr k = "height") || decide (lowerStr k = "quality")

/-- The value a single query entry writes into a given slot, `none` when it
leaves that slot untouched (falsy value, different key, or rejected
value). -/
def writeOf (accept : Option String) (s : Slot) (p : String × String) : Option String :=
  if strIsEmpty p.2 then none
  else if lowerStr p.1 = slotKey s then
    match s with
    | .format => formatCase accept p.2
    | .width => dimCase p.2
    | .height => dimCase p.2
    | .quality => qualityCase p.2
  else none

/-- The last value written into a slot over a whole query string (later
entries win, entries that write nothing leave the previous value). -/
def lastWrite (accept : Option String) (s : Slot) : List (String × String) → Option String
  | [] => none
  | p :: rest =>
    match lastWrite accept s rest with
    | some v => some v
    | none => writeOf accept s p

end UrlRewrite

namespace ImageProcessing

/-- Whether a resolved `toFormat` call carries a `quality` option. -/
def qualityApplied (enc : Option (String × Option (Option Int))) : Bool :=
  match enc with
  | some (_, some _) => true
  | _ => false

/-- A concrete configuration for the closed evaluations: no cache store, the
stack's default cache lifetime and size limit, and allow-lists that the
concrete `regexTest` oracle never matches. -/
def cfg0 : Config :=
  { transformedBucket := none
    cacheTTL := "max-age=31622400"
    maxImageSize := some 4700000
    allowedRemotePatterns := "https://allowed.example/.*"
    allowedRefererPatterns := "https://site.example/.*" }

/-- A concrete world for the closed evaluations: the primary store misses,
the regex engine matches nothing (so every allow-list check fails), URL
decoding and the remote fetch succeed for one fixed remote image, and the
codec passes bytes through. -/
def w0 : World :=
  { regexTest := fun _ _ => false
    s3Get := fun _ => none
    parseUrl := fun s =>
      if s = "https%3A%2F%2Fevil.example%2Fa.jpg" then some "https://evil.example/a.jpg"
      else none
    httpFetch := fun u =>
      if u = "https://evil.example/a.jpg" then some ([1, 2, 3], some "image/jpeg")
      else none
    codecEncode := fun _ => some [1, 2, 3]
    orientation := false
    s3PutOk := fun _ => false
    dlDur := 0
    tfDur := 0
    upDur := 0 }

/-- `cfg0` with a cache store configured and a 2-byte output budget (so a
3-byte output is oversized). -/
def cfgCachedSmall : Config :=
  { cfg0 with transformedBucket := some "transformed-bucket", maxImageSize := some 2 }

/-- `cfg0` with a cache store configured and the stack's default budget. -/
def cfgCached : Config :=
  { cfg0 with transformedBucket := some "transformed-bucket" }

/-- `w0` with a cache-store write that succeeds. -/
def wPutOk : World := { w0 with s3PutOk := fun _ => true }

end ImageProcessing

/-! ## Helper lemmas -/

namespace JS

theorem jsParseInt_ne_empty {s : String} {n : Int} (h : jsParseInt s = some n) :
    strIsEmpty s = false := by
  rcases s with ⟨l⟩
  cases l with
  | nil => simp [jsParseInt, digitsToNat?] at h
  | cons c rest => rfl

end JS

namespace UrlRewrite

open JS

theorem applyOperation_get (accept : Option String) (acc : NormalizedOps)
    (p : String × String) (s : Slot) :
    (applyOperation accept acc p).get s =
      match writeOf accept s p with
      | some v => some v
      | none => acc.get s := by
  obtain ⟨af, aq, aw, ah⟩ := acc
  obtain ⟨k, v⟩ := p
  unfold applyOperation writeOf
  by_cases h2 : strIsEmpty v = true
  · simp [h2]
  · by_cases hf : lowerStr k = "format"
    · cases s <;> rcases hF : formatCase accept v with _ | fv <;>
        first | rfl | simp_all [slotKey, NormalizedOps.get]
    · by_cases hw : lowerStr k = "width"
      · cases s <;> rcases hW : dimCase v with _ | wv <;>
          first | rfl | simp_all [slotKey, NormalizedOps.get]
      · by_cases hh : lowerStr k = "height"
        · cases s <;> rcases hH : dimCase v with _ | hv <;>
            first | rfl | simp_all [slotKey, NormalizedOps.get]
        · by_cases hq : lowerStr k = "quality"
          · cases s <;> rcases hQ : qualityCase v with _ | qv <;>
              first | rfl | simp_all [slotKey, NormalizedOps.get]
          · cases s <;> first | rfl | simp_all [slotKey, NormalizedOps.get]

theorem foldl_applyOperation_get (accept : Option String) (qs : List (String × String))
    (acc : NormalizedOps) (s : Slot) :
    (qs.foldl (applyOperation accept) acc).get s =
      match lastWrite accept s qs with
      | some v => some v
      | none => acc.get s := by
  induction qs generalizing acc with
  | nil => rfl
  | cons p rest ih =>
    rw [List.foldl_cons, ih, lastWrite]
    rcases h : lastWrite accept s rest with _ | v
    · simp only [applyOperation_get]
    · rfl

theorem normalizeOperations_get (accept : Option String) (qs : List (String × String))
    (s : Slot) :
    (normalizeOperations accept qs).get s = lastWrite accept s qs := by
  rw [normalizeOperations, foldl_applyOperation_get]
  rcases lastWrite accept s qs with _ | v
  · cases s <;> rfl
  · rfl

theorem writeOf_ne_none_key {accept : Option String} {s : Slot} {p : String × String}
    (h : writeOf accept s p ≠ none) : lowerStr p.1 = slotKey s := by
  unfold writeOf at h
  by_cases h2 : strIsEmpty p.2
  · simp [h2] at h
  · simp only [h2] at h
    by_cases hk : lowerStr p.1 = slotKey s
    · exact hk
    · simp [hk] at h

theorem lastWrite_perm (accept : Option String) (s : Slot)
    {qs₁ qs₂ : List (String × String)} (h : qs₁.Perm qs₂)
    (hnd : (qs₁.map fun p => lowerStr p.1).Nodup) :
    lastWrite accept s qs₁ = lastWrite accept s qs₂ := by
  induction h with
  | nil => rfl
  | cons x h ih =>
    simp only [List.map_cons, List.nodup_cons] at hnd
    simp only [lastWrite, ih hnd.2]
  | swap x y l =>
    simp only [List.map_cons, List.nodup_cons, List.mem_cons] at hnd
    have hxy : lowerStr y.1 ≠ lowerStr x.1 := fun e => hnd.1 (Or.inl e)
    rcases hl : lastWrite accept s l with _ | v
    · rcases hx : writeOf accept s x with _ | vx
      · rcases hy : writeOf accept s y with _ | vy <;> simp [lastWrite, hl, hx, hy]
      · rcases hy : writeOf accept s y with _ | vy
        · simp [lastWrite, hl, hx, hy]
        · have ex : lowerStr x.1 = slotKey s := @writeOf_ne_none_key accept s x (by simp [hx])
          have ey : lowerStr y.1 = slotKey s := @writeOf_ne_none_key accept s y (by simp [hy])
          exact absurd (ey.trans ex.symm) hxy
    · simp [lastWrite, hl]
  | trans h₁ h₂ ih₁ ih₂ =>
    exact (ih₁ hnd).trans (ih₂ (((h₁.map fun p => lowerStr p.1).nodup_iff).mp hnd))

theorem normalizeOperations_ext {o₁ o₂ : NormalizedOps}
    (h : ∀ s, o₁.get s = o₂.get s) : o₁ = o₂ := by
  rcases o₁ with ⟨f₁, q₁, w₁, h₁⟩
  rcases o₂ with ⟨f₂, q₂, w₂, h₂⟩
  have hf := h .format
  have hq := h .quality
  have hw := h .width
  have hh := h .height
  simp only [NormalizedOps.get] at hf hq hw hh
  simp [hf, hq, hw, hh]

theorem normalizeOperations_perm (accept : Option String)
    {qs₁ qs₂ : List (String × String)} (h : qs₁.Perm qs₂)
    (hnd : (qs₁.map fun p => lowerStr p.1).Nodup) :
    normalizeOperations accept qs₁ = normalizeOperations accept qs₂ :=
  normalizeOperations_ext fun s => by
    rw [normalizeOperations_get, normalizeOperations_get, lastWrite_perm accept s h hnd]

theorem applyOperation_unrecognized (accept : Option String) (acc : NormalizedOps)
    {p : String × String} (h : isRecognizedKey p.1 = false) :
    applyOperation accept acc p = acc := by
  simp only [isRecognizedKey, Bool.or_eq_false_iff, decide_eq_false_iff_not] at h
  unfold applyOperation
  simp [h.1.1.1, h.1.1.2, h.1.2, h.2]

end UrlRewrite

namespace UrlRewrite

open JS

theorem foldl_applyOperation_unrecognized (accept : Option String) (acc : NormalizedOps)
    (qs : List (String × String)) (h : ∀ u ∈ qs, isRecognizedKey u.1 = false) :
    qs.foldl (applyOperation accept) acc = acc := by
  induction qs generalizing acc with
  | nil => rfl
  | cons p rest ih =>
    rw [List.foldl_cons, applyOperation_unrecognized accept acc (h p (List.mem_cons_self p rest)),
      ih acc fun u hu => h u (List.mem_cons_of_mem p hu)]

theorem lastWrite_append (accept : Option String) (s : Slot)
    (l₁ l₂ : List (String × String)) :
    lastWrite accept s (l₁ ++ l₂) =
      match lastWrite accept s l₂ with
      | some v => some v
      | none => lastWrite accept s l₁ := by
  induction l₁ with
  | nil =>
    rw [List.nil_append]
    rcases lastWrite accept s l₂ <;> rfl
  | cons p rest ih =>
    rw [List.cons_append, lastWrite, ih, lastWrite]
    rcases lastWrite accept s l₂ <;> rcases lastWrite accept s rest <;> rfl

theorem lastWrite_none (accept : Option String) (s : Slot)
    (l : List (String × String)) (h : ∀ u ∈ l, writeOf accept s u = none) :
    lastWrite accept s l = none := by
  induction l with
  | nil => rfl
  | cons p rest ih =>
    rw [lastWrite, ih fun u hu => h u (List.mem_cons_of_mem p hu),
      h p (List.mem_cons_self p rest)]

theorem opsArray_quality {ops : NormalizedOps} {q : String} (h : ops.quality = some q) :
    ("quality=" ++ q) ∈ opsArray ops ∧ opsArray ops ≠ [] := by
  rcases ops with ⟨f, qq, w, ht⟩
  simp only at h
  subst h
  rcases f <;> rcases w <;> rcases ht <;> simp [opsArray]

theorem constructNormalizedUri_ne_nil {path : String} {ops : NormalizedOps}
    (h : opsArray ops ≠ []) :
    constructNormalizedUri path ops = path ++ "/" ++ joinWith "," (opsArray ops) := by
  unfold constructNormalizedUri
  simp [h]

/-- **C3** (amended).  The canonical path depends only on the source path, the
capability signal and the effective operation set: (1) equal effective
operation sets give equal canonical paths; (2) reordering the query string
never changes the operation set PROVIDED no two query keys coincide after
lower-casing (the original claim fails without this proviso — see the
counterexample); (3) inserting an entry with an unrecognized key never
changes the operation set; (4) a query string all of whose keys are
unrecognized yields `<path>/original`; (5) an absent query string yields
`<path>/original`. -/
theorem c3_canonical_path_stability :
    (∀ (path : String) (accept : Option String) (qs₁ qs₂ : List (String × String)),
      normalizeOperations accept qs₁ = normalizeOperations accept qs₂ →
      constructNormalizedUri path (normalizeOperations accept qs₁) =
        constructNormalizedUri path (normalizeOperations accept qs₂)) ∧
    (∀ (accept : Option String) (qs₁ qs₂ : List (String × String)), qs₁.Perm qs₂ →
      (qs₁.map fun p => lowerStr p.1).Nodup →
      normalizeOperations accept qs₁ = normalizeOperations accept qs₂) ∧
    (∀ (accept : Option String) (pre post : List (String × String)) (u : String × String),
      isRecognizedKey u.1 = false →
      normalizeOperations accept (pre ++ u :: post) = normalizeOperations accept (pre ++ post)) ∧
    (∀ (path : String) (accept : Option String) (qs : List (String × String)),
      (∀ u ∈ qs, isRecognizedKey u.1 = false) →
      constructNormalizedUri path (normalizeOperations accept qs) = path ++ "/original") ∧
    (∀ (path : String) (accept : Option String), endsWithChar path '/' = false →
      strIsEmpty path = false →
      (handler { uri := path, querystring := none, accept := accept }).uri =
        path ++ "/original") := by
  refine ⟨fun path accept qs₁ qs₂ h => by rw [h], normalizeOperations_perm,
    fun accept pre post u hu => ?_, fun path accept qs h => ?_, fun path accept h1 h2 => ?_⟩
  · unfold normalizeOperations
    rw [List.foldl_append, List.foldl_append, List.foldl_cons,
      applyOperation_unrecognized accept _ hu]
  · rw [normalizeOperations, foldl_applyOperation_unrecognized accept _ qs h]
    rfl
  · simp [handler, h1, h2]

/-- **C3** counterexample to the claim as frozen: two orderings of the same
query parameters (same pair multiset) that produce different canonical
paths, because the keys `Width` and `width` collide after lower-casing and
the later entry wins. -/
theorem c3_order_counterexample :
    List.Perm [(("Width" : String), ("100" : String)), ("width", "200")]
      [("width", "200"), ("Width", "100")] ∧
    constructNormalizedUri "/img" (normalizeOperations none [("Width", "100"), ("width", "200")]) ≠
      constructNormalizedUri "/img" (normalizeOperations none [("width", "200"), ("Width", "100")]) :=
  ⟨List.Perm.swap _ _ _, by decide⟩

/-- Witness for C3: the amended theorem applied at concrete inputs. -/
theorem c3_canonical_path_stability_witness :
    List.Perm [(("a" : String), ("1" : String)), ("width", "2")] [("width", "2"), ("a", "1")] ∧
    ([(("a" : String), ("1" : String)), ("width", "2")].map fun p => lowerStr p.1).Nodup ∧
    normalizeOperations none [("a", "1"), ("width", "2")] =
      normalizeOperations none [("width", "2"), ("a", "1")] ∧
    constructNormalizedUri "/img" (normalizeOperations none [("junk", "1"), ("foo", "2")]) =
      "/img/original" ∧
    (handler { uri := "/img", querystring := none, accept := none }).uri = "/img/original" :=
  ⟨List.Perm.swap _ _ _, by decide,
    c3_canonical_path_stability.2.1 none _ _ (List.Perm.swap _ _ _) (by decide),
    c3_canonical_path_stability.2.2.2.1 "/img" none _ (by decide),
    c3_canonical_path_stability.2.2.2.2 "/img" none (by decide) (by decide)⟩

/-- **C6**: for `format=auto` the output format is negotiated first-match
top-to-bottom from the capability signal — AVIF token ⇒ `avif`, else WEBP
token ⇒ `webp`, else `jpeg` (also when the header is absent); and an
explicit (non-`auto`) format value bypasses negotiation entirely: the
result of the format case does not depend on the capability signal. -/
theorem c6_format_negotiation :
    (∀ a : String, jsIncludes a "avif" = true → getNormalizedFormat (some a) = "avif") ∧
    (∀ a : String, jsIncludes a "avif" = false → jsIncludes a "webp" = true →
      getNormalizedFormat (some a) = "webp") ∧
    (∀ a : String, jsIncludes a "avif" = false → jsIncludes a "webp" = false →
      getNormalizedFormat (some a) = "jpeg") ∧
    getNormalizedFormat none = "jpeg" ∧
    (∀ (accept : Option String) (v : String), lowerStr v = "auto" →
      formatCase accept v = some (getNormalizedFormat accept)) ∧
    (∀ (accept accept' : Option String) (v : String), lowerStr v ≠ "auto" →
      formatCase accept v = formatCase accept' v) := by
  refine ⟨fun a h => by simp [getNormalizedFormat, h],
    fun a h1 h2 => by simp [getNormalizedFormat, h1, h2],
    fun a h1 h2 => by simp [getNormalizedFormat, h1, h2], rfl,
    fun accept v h => by simp [formatCase, h, SUPPORTED_FORMATS],
    fun accept accept' v h => ?_⟩
  unfold formatCase
  simp only [if_neg h]

/-- Witness for C6 at concrete capability signals. -/
theorem c6_format_negotiation_witness :
    jsIncludes "image/avif,image/webp,*/*" "avif" = true ∧
    getNormalizedFormat (some "image/avif,image/webp,*/*") = "avif" ∧
    jsIncludes "image/webp,*/*" "avif" = false ∧
    getNormalizedFormat (some "image/webp,*/*") = "webp" ∧
    getNormalizedFormat (some "text/html") = "jpeg" ∧
    formatCase none "AUTO" = some "jpeg" ∧
    formatCase (some "image/avif") "WebP" = formatCase none "WebP" :=
  ⟨by decide, c6_format_negotiation.1 _ (by decide), by decide,
    c6_format_negotiation.2.1 _ (by decide) (by decide), c6_format_negotiation.2.2.1 _
      (by decide) (by decide),
    c6_format_negotiation.2.2.2.2.1 none "AUTO" (by decide),
    c6_format_negotiation.2.2.2.2.2 (some "image/avif") none "WebP" (by decide)⟩

/-- **C10**: a `quality` query parameter whose value parses above 100 is not
rejected: it is silently clamped, the operation set records `quality=100`,
and the canonical path carries the `quality=100` token. -/
theorem c10_quality_clamped_to_100 (accept : Option String) (path : String)
    (pre post : List (String × String)) (k v : String) (q : Int)
    (hk : lowerStr k = "quality") (hv : jsParseInt v = some q) (hq : 100 < q)
    (hpost : ∀ u ∈ post, writeOf accept Slot.quality u = none) :
    (normalizeOperations accept (pre ++ (k, v) :: post)).quality = some "100" ∧
    "quality=100" ∈ opsArray (normalizeOperations accept (pre ++ (k, v) :: post)) ∧
    constructNormalizedUri path (normalizeOperations accept (pre ++ (k, v) :: post)) =
      path ++ "/" ++ joinWith "," (opsArray (normalizeOperations accept (pre ++ (k, v) :: post))) := by
  have hne : strIsEmpty v = false := jsParseInt_ne_empty hv
  have hqc : qualityCase v = some "100" := by
    unfold qualityCase
    rw [hv]
    show (if 0 < q then some (toString (min q 100)) else none) = some "100"
    rw [if_pos (show (0 : Int) < q by omega), min_eq_right (show (100 : Int) ≤ q by omega)]
    rfl
  have hw : writeOf accept Slot.quality (k, v) = some "100" := by
    unfold writeOf
    simp only [hne, hk, slotKey, Bool.false_eq_true, if_false, if_true]
    exact hqc
  have hqual : (normalizeOperations accept (pre ++ (k, v) :: post)).quality = some "100" := by
    have hg := normalizeOperations_get accept (pre ++ (k, v) :: post) Slot.quality
    rw [lastWrite_append, lastWrite, lastWrite_none accept Slot.quality post hpost, hw] at hg
    exact hg
  exact ⟨hqual, (opsArray_quality hqual).1, constructNormalizedUri_ne_nil (opsArray_quality hqual).2⟩

/-- Witness for C10: `?quality=150` yields canonical suffix `quality=100`. -/
theorem c10_quality_clamped_to_100_witness :
    jsParseInt "150" = some 150 ∧ (100 : Int) < 150 ∧
    (normalizeOperations none [("quality", "150")]).quality = some "100" ∧
    "quality=100" ∈ opsArray (normalizeOperations none [("quality", "150")]) ∧
    constructNormalizedUri "/img" (normalizeOperations none [("quality", "150")]) =
      "/img" ++ "/" ++ joinWith "," (opsArray (normalizeOperations none [("quality", "150")])) :=
  ⟨by decide, by decide,
    c10_quality_clamped_to_100 none "/img" [] [] "quality" "150" 150 (by decide) (by decide)
      (by decide) (by simp)⟩

end UrlRewrite

namespace ImageProcessing

open JS

theorem formatSwitch_image (f : String) : startsWithStr (formatSwitch f).1 "image/" = true := by
  unfold formatSwitch
  split_ifs <;> rfl

theorem dimEntry_clamped {operationsPrefix key v : String} {n : Int}
    (hv : opsGet operationsPrefix key = some v) (hp : jsParseInt v = some n)
    (hn : (4000 : Int) < n) :
    dimEntry operationsPrefix key = some (some 4000) := by
  unfold dimEntry MAX_IMAGE_DIMENSION
  rw [hv]
  simp [jsTruthyStr, jsParseInt_ne_empty hp, hp, hn]

/-- **C1** (code bug witnessed on the embedding): a decoded remote URL whose
host matches no allow-list pattern is still fetched.  The guard of
`remoteImageHandler` reads `if (!url && !isValidRemoteUrl(url))`, so for any
non-empty url the allow-list check is skipped: here every allow-list check
fails, yet the handler's result is exactly the `fetch` result and the whole
request resolves with 200 from the disallowed origin instead of the 404 the
specification requires. -/
theorem c1_remote_allowlist_bypassed :
    isValidRemoteUrl w0.regexTest cfg0.allowedRemotePatterns "https://evil.example/a.jpg" = false ∧
    remoteImageHandler w0 cfg0 "https://evil.example/a.jpg" =
      w0.httpFetch "https://evil.example/a.jpg" ∧
    remoteImageHandler w0 cfg0 "https://evil.example/a.jpg" =
      some ([1, 2, 3], some "image/jpeg") ∧
    (handler cfg0 w0
      { method := "GET", path := "/https%3A%2F%2Fevil.example%2Fa.jpg/original",
        referer := none }).statusCode = 200 := by
  refine ⟨by decide, rfl, by decide, by decide⟩

/-- **C2** (amended): a request whose operations suffix is not `original` and
whose referer is absent, empty, or fails every referer allow-list pattern is
rejected before any store or network fetch — the result is `sendError 400`
for EVERY oracle world, so no fetch outcome can influence it — but with
status 400 (BadRequest), not the 404 the claim states. -/
theorem c2_referer_rejected_with_400 (cfg : Config) (w : World) (ev : Event)
    (hm : ev.method = "GET") (hp : strIsEmpty ev.path = false)
    (hsuf : (splitStr '/' ev.path).getLastD "" ≠ "original")
    (href : refererAllowed w.regexTest cfg.allowedRefererPatterns ev.referer = false) :
    handler cfg w ev = sendError 400 := by
  unfold handler
  rw [if_neg (by simp [hm]), if_neg (by simp [hp]), if_pos ⟨hsuf, href⟩]

/-- **C2** counterexample to the claim as frozen: the concrete rejected
request produces status 400, not 404. -/
theorem c2_referer_rejection_status :
    (handler cfg0 w0
      { method := "GET", path := "/photos/cat.jpg/width=200", referer := none }).statusCode
      = 400 ∧
    ¬(handler cfg0 w0
      { method := "GET", path := "/photos/cat.jpg/width=200", referer := none }).statusCode
      = 404 := by
  refine ⟨by decide, by decide⟩

/-- Witness for C2: the amended theorem applied at a concrete request. -/
theorem c2_referer_rejected_with_400_witness :
    (splitStr '/' "/photos/cat.jpg/width=200").getLastD "" ≠ "original" ∧
    refererAllowed w0.regexTest cfg0.allowedRefererPatterns none = false ∧
    handler cfg0 w0 { method := "GET", path := "/photos/cat.jpg/width=200", referer := none } =
      sendError 400 :=
  ⟨by decide, by decide,
    c2_referer_rejected_with_400 cfg0 w0
      { method := "GET", path := "/photos/cat.jpg/width=200", referer := none }
      rfl (by decide) (by decide) (by decide)⟩

/-- **C4**: a `width` (or `height`) operation value parsing strictly above
4000 is clamped to exactly 4000 in the resizing options the pipeline hands
to the codec; no error path is taken for the out-of-range value. -/
theorem c4_dimension_clamped (operationsPrefix v : String) (n : Int)
    (orientation : Bool) (srcCT : Option String)
    (hv : opsGet operationsPrefix "width" = some v) (hp : jsParseInt v = some n)
    (hn : (4000 : Int) < n) :
    dimEntry operationsPrefix "width" = some (some 4000) ∧
    (buildPlan operationsPrefix orientation srcCT).1.resizeWidth = some (some 4000) ∧
    (∀ (v' : String) (n' : Int), opsGet operationsPrefix "height" = some v' →
      jsParseInt v' = some n' → (4000 : Int) < n' →
      dimEntry operationsPrefix "height" = some (some 4000)) := by
  refine ⟨dimEntry_clamped hv hp hn, ?_, fun v' n' hv' hp' hn' => dimEntry_clamped hv' hp' hn'⟩
  show dimEntry operationsPrefix "width" = some (some 4000)
  exact dimEntry_clamped hv hp hn

/-- Witness for C4: `width=9999,height=5000` clamps both dimensions. -/
theorem c4_dimension_clamped_witness :
    opsGet "width=9999,height=5000" "width" = some "9999" ∧
    jsParseInt "9999" = some 9999 ∧ (4000 : Int) < 9999 ∧
    dimEntry "width=9999,height=5000" "width" = some (some 4000) ∧
    (buildPlan "width=9999,height=5000" false (some "image/jpeg")).1.resizeWidth =
      some (some 4000) ∧
    dimEntry "width=9999,height=5000" "height" = some (some 4000) := by
  have h := c4_dimension_clamped "width=9999,height=5000" "9999" 9999 false
    (some "image/jpeg") (by decide) (by decide) (by decide)
  exact ⟨by decide, by decide, by decide, h.1, h.2.1,
    h.2.2 "5000" 5000 (by decide) (by decide) (by decide)⟩

/-- **C7**: with no explicit `format` operation, an SVG, absent, or non-image
source content type forces the PNG fallback: the resolved content type is
exactly `image/png`; and on every path the resolved content type is a
concrete `image/…` MIME type. -/
theorem c7_png_fallback :
    (∀ fOp qOp srcCT : Option String, jsTruthyStr fOp = false →
      (srcCT = some "image/svg+xml" ∨ jsTruthyStr srcCT = false ∨
        (∃ s, srcCT = some s ∧ startsWithStr s "image/" = false)) →
      (encodeResolution fOp qOp srcCT).1 = some "image/png") ∧
    (∀ fOp qOp srcCT : Option String, ∃ m,
      (encodeResolution fOp qOp srcCT).1 = some m ∧ startsWithStr m "image/" = true) := by
  constructor
  · intro f q ct hf hcase
    unfold encodeResolution
    rw [if_neg (by simp [hf])]
    rcases hcase with h | h | ⟨s, rfl, hstart⟩
    · rw [if_pos h]
    · rcases ct with _ | s
      · simp [jsTruthyStr]
      · have hs : s = "" := by
          rcases s with ⟨l⟩
          cases l with
          | nil => rfl
          | cons c rest => simp [jsTruthyStr, strIsEmpty] at h
        subst hs
        simp [jsTruthyStr, strIsEmpty]
    · by_cases hsvg : s = "image/svg+xml"
      · subst hsvg
        exact absurd hstart (by decide)
      · rw [if_neg (by simp [hsvg]), if_pos (by simp [hstart])]
  · intro f q ct
    unfold encodeResolution
    by_cases hf : jsTruthyStr f = true
    · rw [if_pos hf]
      refine ⟨(formatSwitch (f.getD "")).1, ?_, formatSwitch_image _⟩
      by_cases hc : (jsTruthyStr q && (formatSwitch (f.getD "")).2) = true
      · rw [if_pos hc]
      · rw [if_neg hc]
    · rw [if_neg hf]
      by_cases hsvg : ct = some "image/svg+xml"
      · rw [if_pos hsvg]
        exact ⟨"image/png", rfl, by decide⟩
      · rw [if_neg hsvg]
        by_cases hcond : (!jsTruthyStr ct || !startsWithStr (ct.getD "") "image/") = true
        · rw [if_pos hcond]
          exact ⟨"image/png", rfl, by decide⟩
        · rw [if_neg hcond]
          simp only [Bool.or_eq_true, Bool.not_eq_true', not_or] at hcond
          push_neg at hcond
          rcases ct with _ | s
          · simp [jsTruthyStr] at hcond
          · exact ⟨s, rfl, by simpa using hcond.2⟩

/-- Witness for C7 at concrete content types. -/
theorem c7_png_fallback_witness :
    jsTruthyStr none = false ∧
    (encodeResolution none none (some "image/svg+xml")).1 = some "image/png" ∧
    (encodeResolution none none none).1 = some "image/png" ∧
    (encodeResolution none none (some "text/plain")).1 = some "image/png" ∧
    (encodeResolution (some "webp") none (some "text/plain")).1 = some "image/webp" :=
  ⟨rfl,
    c7_png_fallback.1 none none (some "image/svg+xml") (by decide) (Or.inl rfl),
    c7_png_fallback.1 none none none (by decide) (Or.inr (Or.inl rfl)),
    c7_png_fallback.1 none none (some "text/plain") (by decide)
      (Or.inr (Or.inr ⟨"text/plain", rfl, by decide⟩)),
    by decide⟩

/-- **C8**: the `quality` operation reaches the encoder exactly when the
resolved format is lossy — in particular it is dropped whenever the explicit
format is `png` or `gif` — and the lossiness bit is computed from the
resolved format (`formatSwitch`), i.e. after format resolution. -/
theorem c8_quality_only_for_lossy :
    (∀ qOp srcCT : Option String,
      qualityApplied (encodeResolution (some "png") qOp srcCT).2 = false ∧
      qualityApplied (encodeResolution (some "gif") qOp srcCT).2 = false) ∧
    (∀ fOp qOp srcCT : Option String, jsTruthyStr fOp = true →
      qualityApplied (encodeResolution fOp qOp srcCT).2 =
        (jsTruthyStr qOp && (formatSwitch (fOp.getD "")).2)) := by
  have key : ∀ fOp qOp srcCT : Option String, jsTruthyStr fOp = true →
      qualityApplied (encodeResolution fOp qOp srcCT).2 =
        (jsTruthyStr qOp && (formatSwitch (fOp.getD "")).2) := by
    intro f q ct hf
    unfold encodeResolution
    rw [if_pos hf]
    by_cases hc : (jsTruthyStr q && (formatSwitch (f.getD "")).2) = true
    · rw [if_pos hc, hc]
      rfl
    · have hc' : (jsTruthyStr q && (formatSwitch (f.getD "")).2) = false := by
        revert hc
        cases jsTruthyStr q && (formatSwitch (f.getD "")).2 <;> simp
      rw [if_neg hc, hc']
      rfl
  refine ⟨fun q ct => ?_, key⟩
  constructor
  · rw [key (some "png") q ct rfl]
    simp [show (formatSwitch "png").2 = false from rfl]
  · rw [key (some "gif") q ct rfl]
    simp [show (formatSwitch "gif").2 = false from rfl]

/-- Witness for C8: quality applied for `jpeg`, dropped for `png`. -/
theorem c8_quality_only_for_lossy_witness :
    jsTruthyStr (some "jpeg") = true ∧
    qualityApplied (encodeResolution (some "jpeg") (some "80") none).2 =
      (jsTruthyStr (some "80") && (formatSwitch "jpeg").2) ∧
    qualityApplied (encodeResolution (some "jpeg") (some "80") none).2 = true ∧
    qualityApplied (encodeResolution (some "png") (some "80") none).2 = false :=
  ⟨rfl, c8_quality_only_for_lossy.2 (some "jpeg") (some "80") none rfl, by decide,
    (c8_quality_only_for_lossy.1 (some "80") none).1⟩

/-- **C5**: an oversized encode (encoded byte length above the configured
maximum) yields, when a cache store is configured and the write succeeds, a
302 whose `Location` is `/<original path>?<operations with ',' replaced by
'&'>` and whose `Cache-Control` is exactly `private,no-store`; with no cache
store, or a failed write, it yields status 403. -/
theorem c5_oversized_response (cfg : Config) (w : World) (key ops : String)
    (buf : List Nat) (ct : Option String) (timing : String)
    (hbig : imageTooBig buf cfg.maxImageSize = true) :
    (∀ b, cfg.transformedBucket = some b → w.s3PutOk (key ++ "/" ++ ops) = true →
      respond cfg w key ops buf ct timing =
        { statusCode := 302
          headers := [("Location", some ("/" ++ key ++ "?" ++ replaceChar ops ',' '&')),
            ("Cache-Control", some "private,no-store"),
            ("Server-Timing", some (timing ++ ",img-upload;dur=" ++ toString w.upDur))] }) ∧
    (∀ b, cfg.transformedBucket = some b → w.s3PutOk (key ++ "/" ++ ops) = false →
      respond cfg w key ops buf ct timing = sendError 403) ∧
    (cfg.transformedBucket = none →
      respond cfg w key ops buf ct timing = sendError 403) := by
  refine ⟨fun b hb hput => ?_, fun b hb hput => ?_, fun hb => ?_⟩
  · unfold respond
    rw [hb]
    simp [hbig, hput]
  · unfold respond
    rw [hb]
    simp [hbig, hput]
  · unfold respond
    rw [hb]
    simp [hbig]

/-- Witness for C5: a 3-byte output against a 2-byte budget. -/
theorem c5_oversized_response_witness :
    imageTooBig [1, 2, 3] cfgCachedSmall.maxImageSize = true ∧
    cfgCachedSmall.transformedBucket = some "transformed-bucket" ∧
    wPutOk.s3PutOk ("photos/cat.jpg" ++ "/" ++ "width=200,format=webp") = true ∧
    respond cfgCachedSmall wPutOk "photos/cat.jpg" "width=200,format=webp" [1, 2, 3]
        (some "image/webp") "t" =
      { statusCode := 302
        headers := [("Location",
            some ("/" ++ "photos/cat.jpg" ++ "?" ++
              replaceChar "width=200,format=webp" ',' '&')),
          ("Cache-Control", some "private,no-store"),
          ("Server-Timing", some ("t" ++ ",img-upload;dur=" ++ toString wPutOk.upDur))] } ∧
    replaceChar "width=200,format=webp" ',' '&' = "width=200&format=webp" ∧
    respond { cfg0 with maxImageSize := some 2 } wPutOk "photos/cat.jpg" "width=200,format=webp"
        [1, 2, 3] (some "image/webp") "t" = sendError 403 := by
  refine ⟨by decide, rfl, rfl, ?_, by decide, ?_⟩
  · exact (c5_oversized_response cfgCachedSmall wPutOk "photos/cat.jpg" "width=200,format=webp"
      [1, 2, 3] (some "image/webp") "t" (by decide)).1 "transformed-bucket" rfl rfl
  · exact (c5_oversized_response { cfg0 with maxImageSize := some 2 } wPutOk "photos/cat.jpg"
      "width=200,format=webp" [1, 2, 3] (some "image/webp") "t" (by decide)).2.2 rfl

/-- **C9**: when the output is not oversized and the cache store is
configured but the write fails, the failure is swallowed: the response is
the same 200 (body = base64 bytes, content type, cache-lifetime header)
that would be produced with caching disabled. -/
theorem c9_cache_write_failure_swallowed (cfg : Config) (w : World) (key ops : String)
    (buf : List Nat) (ct : Option String) (timing : String) (b : String)
    (hb : cfg.transformedBucket = some b)
    (hput : w.s3PutOk (key ++ "/" ++ ops) = false)
    (hsize : imageTooBig buf cfg.maxImageSize = false) :
    respond cfg w key ops buf ct timing = okResponse cfg buf ct timing ∧
    respond cfg w key ops buf ct timing =
      respond { cfg with transformedBucket := none } w key ops buf ct timing ∧
    (respond cfg w key ops buf ct timing).statusCode = 200 ∧
    (respond cfg w key ops buf ct timing).body = some (base64Encode buf) := by
  have h1 : respond cfg w key ops buf ct timing = okResponse cfg buf ct timing := by
    unfold respond
    rw [hb]
    simp [hsize, hput]
  have h2 : respond { cfg with transformedBucket := none } w key ops buf ct timing =
      okResponse cfg buf ct timing := by
    unfold respond
    simp [hsize, okResponse]
  exact ⟨h1, h1.trans h2.symm, by rw [h1]; rfl, by rw [h1]; rfl⟩

/-- Witness for C9: a failed cache write still returns the inline 200. -/
theorem c9_cache_write_failure_swallowed_witness :
    cfgCached.transformedBucket = some "transformed-bucket" ∧
    w0.s3PutOk ("photos/cat.jpg" ++ "/" ++ "width=200") = false ∧
    imageTooBig [1, 2, 3] cfgCached.maxImageSize = false ∧
    respond cfgCached w0 "photos/cat.jpg" "width=200" [1, 2, 3] (some "image/webp") "t" =
      okResponse cfgCached [1, 2, 3] (some "image/webp") "t" ∧
    respond cfgCached w0 "photos/cat.jpg" "width=200" [1, 2, 3] (some "image/webp") "t" =
      respond { cfgCached with transformedBucket := none } w0 "photos/cat.jpg" "width=200"
        [1, 2, 3] (some "image/webp") "t" ∧
    (respond cfgCached w0 "photos/cat.jpg" "width=200" [1, 2, 3] (some "image/webp")
      "t").statusCode = 200 := by
  have h := c9_cache_write_failure_swallowed cfgCached w0 "photos/cat.jpg" "width=200"
    [1, 2, 3] (some "image/webp") "t" "transformed-bucket" rfl rfl (by decide)
  exact ⟨rfl, rfl, by decide, h.1, h.2.1, h.2.2.1⟩

end ImageProcessing
